import Mathlib

/-!
# Verification of the adventure-harmony conversation core

A shallow embedding of the conversation-history reconstruction engine
(`build_conversation_history_with_tools`, `validate_tool_use_results`,
`estimate_token_count`, `filter_messages_by_tokens` in
`python_worker_a2a.py`), the bounded tool loop
(`process_message_with_claude`), and the MCP streamable HTTP client
(`mcp_streamable_client.py`, `agno_mcp_tools.py`), together with proofs
about the specified invariants.

Conventions of the embedding:
* Python strings are Lean `String`s; a database field that may be NULL or
  absent is modelled as the empty string when Python treats both the same
  way (truthiness), and as `Option String` where the code distinguishes
  presence from emptiness.
* Python dicts whose key sets matter are association lists
  (`List (String × String)`), preserving insertion order like `dict`.
* Exceptions are modelled with explicit error constructors.
-/

namespace AdventureHarmony

/-- `True` iff every character is whitespace; `s.strip()` in Python is falsy
exactly on such strings (and on the empty string). -/
def isBlankStr (s : String) : Bool :=
  s.data.all Char.isWhitespace

/-- Direction of a stored message row (`direction` column). -/
inductive Direction where
  | incoming
  | outgoing
deriving DecidableEq, Repr

/-- One entry of a row's `tool_calls` list: `{id, name, input/arguments}`.
The `input` payload is opaque to the history builder; it is carried as its
JSON text. -/
structure ToolCall where
  id : String
  name : String
  input : String
deriving DecidableEq, Repr

/-- A stored message row (`conversation_messages` row) as read by
`build_conversation_history_with_tools`.  `content` is the text column
(NULL modelled as `""`, which Python's truthiness check treats the same
way); `tool_calls` is `[]` when the column is NULL or absent;
`tool_result_for` is `""` when absent (Python tests it for truthiness). -/
structure Row where
  direction : Direction
  content : String
  tool_calls : List ToolCall
  tool_result_for : String
deriving DecidableEq, Repr

/-- Role of a Claude message. -/
inductive Role where
  | user
  | assistant
deriving DecidableEq, Repr

/-- One content block of a Claude message with list-shaped content:
`{"type":"text","text":s}`, `{"type":"tool_use","id":..,"name":..,"input":..}`
or `{"type":"tool_result","tool_use_id":..,"content":..}`.  The `tool_use`
`input` is a dict in the source and is carried opaquely. -/
inductive Block where
  | textB (text : String)
  | toolUse (id : String) (name : String) (input : String)
  | toolResult (toolUseId : String) (content : String)
deriving DecidableEq, Repr

/-- The `content` field of a Claude message: either a plain string or a
list of blocks, mirroring the two shapes the Python code produces and
tests with `isinstance(content, list)`. -/
inductive Content where
  | text (s : String)
  | blocks (l : List Block)
deriving DecidableEq, Repr

/-- A Claude message `{"role": .., "content": ..}`. -/
structure Msg where
  role : Role
  content : Content
deriving DecidableEq, Repr

/-- The role string as counted by `estimate_token_count` (`len(msg["role"])`). -/
def Role.toStr : Role → String
  | .user => "user"
  | .assistant => "assistant"

/-- The placeholder result content synthesized by
`build_conversation_history_with_tools` when no result rows follow a
tool-call row: `json.dumps({"status": "success", "message": "Tool executed successfully"})`. -/
def buildPlaceholder : String :=
  "\x7b\"status\": \"success\", \"message\": \"Tool executed successfully\"\x7d"

/-- The placeholder result content synthesized by
`validate_tool_use_results`: `json.dumps({"status": "success", "message": "Tool completed"})`. -/
def validatePlaceholder : String :=
  "\x7b\"status\": \"success\", \"message\": \"Tool completed\"\x7d"

/-- The assistant message emitted for a row with a non-empty `tool_calls`
list: a text block (`row.content` when truthy and non-blank, otherwise
`"Using tools"`) followed by one `tool_use` block per well-formed tool
call (entries lacking a truthy `id` or `name` are dropped). -/
def asstToolMsg (row : Row) : Msg :=
  let text :=
    if row.content ≠ "" ∧ ¬ isBlankStr row.content then row.content else "Using tools"
  let uses := row.tool_calls.filterMap fun tc =>
    if tc.id ≠ "" ∧ tc.name ≠ "" then some (.toolUse tc.id tc.name tc.input) else none
  ⟨.assistant, .blocks (.textB text :: uses)⟩

/-- The user message holding tool results that follows an assistant
tool-call message: the consumed result rows in encounter order, or, when
none were found, one synthesized placeholder per well-formed tool call.
Consumed rows contribute their `content` directly (database rows always
carry the `content` column, so the source's `.get` default for a missing
key never fires). -/
def resultUserMsg (row : Row) (resultRows : List Row) : Msg :=
  let found := resultRows.map fun r => Block.toolResult r.tool_result_for r.content
  let blocks :=
    if found.isEmpty then
      row.tool_calls.filterMap fun tc =>
        if tc.id ≠ "" ∧ tc.name ≠ "" then
          some (.toolResult tc.id buildPlaceholder)
        else none
    else found
  ⟨.user, .blocks blocks⟩

/-- `build_conversation_history_with_tools` (without the final validation
pass).  Rows with empty or blank content are skipped outright; a row with
tool calls emits an assistant message and then consumes the maximal run of
immediately following rows having a truthy `tool_result_for` into one user
message; remaining `tool_result_for` rows are skipped; all other rows
become plain text messages. -/
def buildConversationHistoryWithTools : List Row → List Msg
  | [] => []
  | row :: rest =>
    if row.content = "" ∨ isBlankStr row.content then
      buildConversationHistoryWithTools rest
    else if row.tool_calls ≠ [] then
      let resultRows := rest.takeWhile fun r => r.tool_result_for ≠ ""
      let rest' := rest.dropWhile fun r => r.tool_result_for ≠ ""
      asstToolMsg row :: resultUserMsg row resultRows ::
        buildConversationHistoryWithTools rest'
    else if row.tool_result_for ≠ "" then
      buildConversationHistoryWithTools rest
    else
      ⟨if row.direction = .incoming then .user else .assistant, .text row.content⟩ ::
        buildConversationHistoryWithTools rest
termination_by l => l.length
decreasing_by
  all_goals simp_wf
  all_goals first
    | omega
    | exact Nat.lt_succ_of_le (List.dropWhile_suffix _).sublist.length_le

/-- Whether a message is an assistant message whose list-shaped content
contains at least one `tool_use` block (the guard in
`validate_tool_use_results`). -/
def isAsstToolUse (m : Msg) : Bool :=
  m.role == .assistant &&
    (match m.content with
     | .blocks l => l.any fun b => match b with | .toolUse _ _ _ => true | _ => false
     | .text _ => false)

/-- The ids of the `tool_use` blocks of a message with truthy ids
(`block["id"] for ... if block.get("type") == "tool_use" and block.get("id")`). -/
def toolUseIds (m : Msg) : List String :=
  match m.content with
  | .blocks l => l.filterMap fun b =>
      match b with
      | .toolUse id _ _ => if id ≠ "" then some id else none
      | _ => none
  | .text _ => []

/-- The `tool_use_id`s of the `tool_result` blocks of a message. -/
def resultIds (m : Msg) : List String :=
  match m.content with
  | .blocks l => l.filterMap fun b =>
      match b with
      | .toolResult tid _ => some tid
      | _ => none
  | .text _ => []

/-- The check `validate_tool_use_results` performs on the message after an
assistant tool-use message: role `user`, list-shaped content, and every
tool-use id present among its result ids. -/
def coveredBy (ids : List String) (n : Msg) : Bool :=
  n.role == .user &&
    (match n.content with | .blocks _ => true | .text _ => false) &&
    ids.all fun id => (resultIds n).contains id

/-- The synthetic all-placeholder user message `validate_tool_use_results`
inserts when results are missing. -/
def synthMsg (ids : List String) : Msg :=
  ⟨.user, .blocks (ids.map fun id => .toolResult id validatePlaceholder)⟩

/-- `validate_tool_use_results`: after every assistant message containing
`tool_use` blocks, require the next message to be a user message whose
result ids cover the tool-use ids; otherwise insert a synthetic
placeholder user message and, when the next message had role `user`, skip
that message. -/
def validateToolUseResults : List Msg → List Msg
  | [] => []
  | m :: rest =>
    if isAsstToolUse m then
      let ids := toolUseIds m
      match rest with
      | [] => [m, synthMsg ids]
      | n :: rest' =>
        if coveredBy ids n then
          m :: validateToolUseResults (n :: rest')
        else if n.role == .user then
          m :: synthMsg ids :: validateToolUseResults rest'
        else
          m :: synthMsg ids :: validateToolUseResults (n :: rest')
    else
      m :: validateToolUseResults rest
termination_by l => l.length
decreasing_by all_goals simp_wf <;> omega

/-- `BuildTurns` of the spec: row reconstruction followed by the
validation pass. -/
def buildTurns (rows : List Row) : List Msg :=
  validateToolUseResults (buildConversationHistoryWithTools rows)

/-- Characters contributed by one block to `estimate_token_count`: the
string values of the block dict.  The `"type"` value is itself a string
(`"text"`/`"tool_use"`/`"tool_result"`); a `tool_use` block's `input` is a
dict, not a string, so it is not counted. -/
def blockChars : Block → Nat
  | .textB s => "text".length + s.length
  | .toolUse id name _ => "tool_use".length + id.length + name.length
  | .toolResult tid content => "tool_result".length + tid.length + content.length

/-- Characters contributed by one message to `estimate_token_count`. -/
def msgChars (m : Msg) : Nat :=
  m.role.toStr.length +
    (match m.content with
     | .text s => s.length
     | .blocks l => (l.map blockChars).sum)

/-- `estimate_token_count`: total characters divided by 4. -/
def estimateTokenCount (msgs : List Msg) : Nat :=
  (msgs.map msgChars).sum / 4

/-- The trimming loop of `filter_messages_by_tokens`: while the list is
non-empty and the estimate exceeds the budget, drop the head. -/
def dropLoop : List Msg → Nat → List Msg
  | [], _ => []
  | m :: rest, maxTokens =>
    if estimateTokenCount (m :: rest) ≤ maxTokens then m :: rest
    else dropLoop rest maxTokens

/-- `filter_messages_by_tokens` (the default budget in the source is
40000; the bound is a parameter here as in the source signature). -/
def filterMessagesByTokens (msgs : List Msg) (maxTokens : Nat) : List Msg :=
  if msgs.isEmpty then msgs else dropLoop msgs maxTokens

/-- Whether every block of a message's list-shaped content is a
`tool_result` block (string-shaped content does not qualify). -/
def onlyResults (m : Msg) : Bool :=
  match m.content with
  | .blocks l => l.all fun b => match b with | .toolResult _ _ => true | _ => false
  | .text _ => false

/-- Invariant I1 exactly as the spec states it, for one adjacent pair: the
follower is a user message whose blocks are exactly the `tool_result`
blocks for the leader's tool-use ids, in the same order, no more, no
fewer. -/
def exactPair (m n : Msg) : Bool :=
  n.role == .user && onlyResults n && resultIds n == toolUseIds m

/-- The weakened pairing for one adjacent pair: the follower is a user
message consisting solely of `tool_result` blocks whose ids include every
tool-use id of the leader (possibly with extra or reordered results). -/
def subsetPair (m n : Msg) : Bool :=
  n.role == .user && onlyResults n &&
    (toolUseIds m).all fun id => (resultIds n).contains id

/-- Invariant I1 (exact form) over a whole message sequence. -/
def exactPairingOK : List Msg → Bool
  | [] => true
  | m :: rest =>
    (if isAsstToolUse m then
       match rest with
       | [] => false
       | n :: _ => exactPair m n
     else true) && exactPairingOK rest

/-- The weakened pairing invariant over a whole message sequence. -/
def pairingOK : List Msg → Bool
  | [] => true
  | m :: rest =>
    (if isAsstToolUse m then
       match rest with
       | [] => false
       | n :: _ => subsetPair m n
     else true) && pairingOK rest

/-- Every user message with list-shaped content consists solely of
`tool_result` blocks.  This holds for the output of
`build_conversation_history_with_tools`, whose only list-shaped user
messages are tool-result messages. -/
def Tidy (msgs : List Msg) : Prop :=
  ∀ m ∈ msgs, m.role = .user →
    (match m.content with | .blocks _ => True | .text _ => False) →
    onlyResults m = true

theorem tidy_nil : Tidy [] := by
  intro m hm
  cases hm

theorem tidy_cons {m : Msg} {rest : List Msg}
    (h1 : m.role = .user →
      (match m.content with | .blocks _ => True | .text _ => False) →
      onlyResults m = true)
    (h2 : Tidy rest) : Tidy (m :: rest) := by
  intro x hx
  rcases List.mem_cons.mp hx with h | h
  · subst h; exact h1
  · exact h2 x h

theorem tidy_of_cons {m : Msg} {rest : List Msg} (h : Tidy (m :: rest)) :
    Tidy rest :=
  fun x hx => h x (List.mem_cons_of_mem _ hx)

theorem tidy_head {m : Msg} {rest : List Msg} (h : Tidy (m :: rest)) :
    m.role = .user →
    (match m.content with | .blocks _ => True | .text _ => False) →
    onlyResults m = true :=
  h m (List.mem_cons_self _ _)

/-- Equation: the empty row list builds the empty history. -/
theorem build_nil : buildConversationHistoryWithTools [] = [] := by
  simp [buildConversationHistoryWithTools]

/-- Equation: a row with empty or blank content is skipped. -/
theorem build_skip (row : Row) (rest : List Row)
    (h : row.content = "" ∨ isBlankStr row.content = true) :
    buildConversationHistoryWithTools (row :: rest) =
      buildConversationHistoryWithTools rest := by
  rw [buildConversationHistoryWithTools, if_pos h]

/-- Equation: a non-blank row with tool calls emits the assistant message,
the tool-result user message built from the maximal following run of
result rows, and continues after that run. -/
theorem build_tool (row : Row) (rest : List Row)
    (h1 : ¬ (row.content = "" ∨ isBlankStr row.content = true))
    (h2 : row.tool_calls ≠ []) :
    buildConversationHistoryWithTools (row :: rest) =
      asstToolMsg row ::
        resultUserMsg row (rest.takeWhile fun r => r.tool_result_for ≠ "") ::
        buildConversationHistoryWithTools
          (rest.dropWhile fun r => r.tool_result_for ≠ "") := by
  rw [buildConversationHistoryWithTools, if_neg h1, if_pos h2]

/-- Equation: a non-blank result row without tool calls is skipped. -/
theorem build_result_skip (row : Row) (rest : List Row)
    (h1 : ¬ (row.content = "" ∨ isBlankStr row.content = true))
    (h2 : ¬ row.tool_calls ≠ []) (h3 : row.tool_result_for ≠ "") :
    buildConversationHistoryWithTools (row :: rest) =
      buildConversationHistoryWithTools rest := by
  rw [buildConversationHistoryWithTools, if_neg h1, if_neg h2, if_pos h3]

/-- Equation: any other row becomes a plain text message. -/
theorem build_plain (row : Row) (rest : List Row)
    (h1 : ¬ (row.content = "" ∨ isBlankStr row.content = true))
    (h2 : ¬ row.tool_calls ≠ []) (h3 : ¬ row.tool_result_for ≠ "") :
    buildConversationHistoryWithTools (row :: rest) =
      ⟨if row.direction = .incoming then .user else .assistant, .text row.content⟩ ::
        buildConversationHistoryWithTools rest := by
  rw [buildConversationHistoryWithTools, if_neg h1, if_neg h2, if_neg h3]

/-- Equation: the validation pass maps the empty sequence to itself. -/
theorem validate_nil : validateToolUseResults [] = [] := by
  simp [validateToolUseResults]

/-- Equation: a final assistant tool-use message gets a synthetic
follower appended. -/
theorem validate_single (m : Msg) (h : isAsstToolUse m = true) :
    validateToolUseResults [m] = [m, synthMsg (toolUseIds m)] := by
  rw [validateToolUseResults]
  simp [h]

/-- Equation: a covered assistant tool-use message is kept and validation
continues with its follower. -/
theorem validate_covered (m n : Msg) (rest' : List Msg)
    (h : isAsstToolUse m = true) (hcov : coveredBy (toolUseIds m) n = true) :
    validateToolUseResults (m :: n :: rest') =
      m :: validateToolUseResults (n :: rest') := by
  rw [validateToolUseResults]
  simp [h, hcov]

/-- Equation: an uncovered assistant tool-use message followed by a user
message gets a synthetic follower and the user message is dropped. -/
theorem validate_uncovered_user (m n : Msg) (rest' : List Msg)
    (h : isAsstToolUse m = true) (hcov : coveredBy (toolUseIds m) n = false)
    (huser : n.role = .user) :
    validateToolUseResults (m :: n :: rest') =
      m :: synthMsg (toolUseIds m) :: validateToolUseResults rest' := by
  rw [validateToolUseResults]
  simp [h, hcov, huser]

/-- Equation: an uncovered assistant tool-use message followed by a
non-user message gets a synthetic follower inserted in between. -/
theorem validate_uncovered_other (m n : Msg) (rest' : List Msg)
    (h : isAsstToolUse m = true) (hcov : coveredBy (toolUseIds m) n = false)
    (huser : ¬ n.role = .user) :
    validateToolUseResults (m :: n :: rest') =
      m :: synthMsg (toolUseIds m) :: validateToolUseResults (n :: rest') := by
  rw [validateToolUseResults]
  simp [h, hcov, huser]

/-- Equation: a non-tool-use head is left in place. -/
theorem validate_cons_of_not_asst {m : Msg} (rest : List Msg)
    (h : isAsstToolUse m = false) :
    validateToolUseResults (m :: rest) = m :: validateToolUseResults rest := by
  rw [validateToolUseResults]
  cases rest with
  | nil => simp [h]
  | cons n rest' => simp [h]

/-- The tool-result user message following an assistant tool-call message
consists solely of `tool_result` blocks. -/
theorem onlyResults_resultUserMsg (row : Row) (resultRows : List Row) :
    onlyResults (resultUserMsg row resultRows) = true := by
  simp only [resultUserMsg, onlyResults]
  split
  · simp only [List.all_eq_true]
    intro b hb
    rcases List.mem_filterMap.mp hb with ⟨tc, _, htc⟩
    split at htc
    · rw [Option.some.injEq] at htc
      subst htc
      rfl
    · exact absurd htc (by simp)
  · simp only [List.all_eq_true]
    intro b hb
    rcases List.mem_map.mp hb with ⟨r, _, hr⟩
    subst hr
    rfl

/-- A message with role `user` is never an assistant tool-use message. -/
theorem not_asstToolUse_of_user {m : Msg} (h : m.role = .user) :
    isAsstToolUse m = false := by
  unfold isAsstToolUse
  simp [h]

/-- `build_conversation_history_with_tools` only emits list-shaped user
messages that consist solely of `tool_result` blocks. -/
theorem tidy_build (rows : List Row) :
    Tidy (buildConversationHistoryWithTools rows) := by
  induction rows using buildConversationHistoryWithTools.induct with
  | case1 =>
    rw [build_nil]
    exact tidy_nil
  | case2 row rest hskip ih =>
    rw [build_skip row rest hskip]
    exact ih
  | case3 row rest hskip htc rest' ih =>
    rw [build_tool row rest hskip htc]
    refine tidy_cons ?_ (tidy_cons ?_ ih)
    · intro hrole
      simp [asstToolMsg] at hrole
    · intro _ _
      exact onlyResults_resultUserMsg row _
  | case4 row rest hskip htc hres ih =>
    rw [build_result_skip row rest hskip htc hres]
    exact ih
  | case5 row rest hskip htc hres ih =>
    rw [build_plain row rest hskip htc hres]
    refine tidy_cons ?_ ih
    intro _ hcontent
    simp at hcontent

/-- The ids of the result blocks of the synthetic message are exactly the
requested ids. -/
theorem resultIds_synth (ids : List String) : resultIds (synthMsg ids) = ids := by
  simp only [synthMsg, resultIds]
  induction ids with
  | nil => rfl
  | cons x xs ihx => simp [List.filterMap_cons, ihx]

/-- The synthetic message pairs (in the weakened sense) with the message
whose tool-use ids it was built from. -/
theorem subsetPair_synth (m : Msg) :
    subsetPair m (synthMsg (toolUseIds m)) = true := by
  simp only [subsetPair, Bool.and_eq_true, beq_iff_eq, List.all_eq_true]
  refine ⟨⟨rfl, ?_⟩, ?_⟩
  · simp only [synthMsg, onlyResults, List.all_eq_true]
    intro b hb
    rcases List.mem_map.mp hb with ⟨id, _, hid⟩
    subst hid
    rfl
  · intro id hid
    rw [resultIds_synth]
    exact List.elem_eq_true_of_mem hid

/-- After the validation pass on a tidy input, every assistant message
with tool-use blocks is immediately followed by a user message made
solely of `tool_result` blocks covering all its tool-use ids. -/
theorem pairingOK_validate (msgs : List Msg) (htidy : Tidy msgs) :
    pairingOK (validateToolUseResults msgs) = true := by
  induction msgs using validateToolUseResults.induct with
  | case1 =>
    rw [validate_nil]
    rfl
  | case2 m hasst =>
    rw [validate_single m hasst]
    simp only [pairingOK, hasst, if_true, Bool.and_eq_true]
    exact ⟨subsetPair_synth m, by
      simp [pairingOK, not_asstToolUse_of_user (show (synthMsg (toolUseIds m)).role = .user from rfl)]⟩
  | case3 m hasst ids n rest' hcov ih =>
    rw [validate_covered m n rest' hasst hcov]
    have hn_user : n.role = .user := by
      unfold coveredBy at hcov
      simp only [Bool.and_eq_true, beq_iff_eq] at hcov
      exact hcov.1.1
    have hn_blocks : (match n.content with | .blocks _ => True | .text _ => False) := by
      unfold coveredBy at hcov
      simp only [Bool.and_eq_true] at hcov
      rcases hn : n.content with s | l
      · rw [hn] at hcov
        simp at hcov
      · trivial
    have honly : onlyResults n = true :=
      (tidy_of_cons htidy) n (List.mem_cons_self _ _) hn_user hn_blocks
    have hids : ((toolUseIds m).all fun id => (resultIds n).contains id) = true := by
      unfold coveredBy at hcov
      simp only [Bool.and_eq_true] at hcov
      exact hcov.2
    have hval : validateToolUseResults (n :: rest') =
        n :: validateToolUseResults rest' :=
      validate_cons_of_not_asst _ (not_asstToolUse_of_user hn_user)
    have htail : pairingOK (validateToolUseResults (n :: rest')) = true :=
      ih (tidy_of_cons htidy)
    rw [hval] at htail ⊢
    simp only [pairingOK, hasst, if_true, Bool.and_eq_true] at htail ⊢
    refine ⟨?_, htail⟩
    unfold subsetPair
    simp only [Bool.and_eq_true, beq_iff_eq]
    exact ⟨⟨hn_user, honly⟩, hids⟩
  | case4 m hasst ids n rest' hcov huser ih =>
    have hcov' : coveredBy (toolUseIds m) n = false := by
      simpa using hcov
    have huser' : n.role = .user := by
      simpa using huser
    rw [validate_uncovered_user m n rest' hasst hcov' huser']
    have htail := ih (tidy_of_cons (tidy_of_cons htidy))
    simp only [pairingOK, hasst, if_true, Bool.and_eq_true]
    refine ⟨subsetPair_synth m, ?_, htail⟩
    simp [not_asstToolUse_of_user (show (synthMsg (toolUseIds m)).role = .user from rfl)]
  | case5 m hasst ids n rest' hcov huser ih =>
    have hcov' : coveredBy (toolUseIds m) n = false := by
      simpa using hcov
    have huser' : ¬ n.role = .user := by
      simpa using huser
    rw [validate_uncovered_other m n rest' hasst hcov' huser']
    have htail := ih (tidy_of_cons htidy)
    simp only [pairingOK, hasst, if_true, Bool.and_eq_true]
    refine ⟨subsetPair_synth m, ?_, htail⟩
    simp [not_asstToolUse_of_user (show (synthMsg (toolUseIds m)).role = .user from rfl)]
  | case6 m rest hasst ih =>
    have hasst' : isAsstToolUse m = false := by
      simpa using hasst
    rw [validate_cons_of_not_asst rest hasst']
    simp only [pairingOK, hasst', if_false, Bool.true_and]
    exact ih (tidy_of_cons htidy)

/-- C1 (amended): for every list of stored message rows, the turn
sequence produced by `BuildTurns` satisfies the weakened pairing
invariant: every assistant turn containing tool-invocation blocks is
immediately followed by a user turn consisting solely of tool-result
blocks whose correlation ids include every invocation id (possibly with
extra or reordered result blocks). -/
theorem buildTurns_pairing_superset (rows : List Row) :
    pairingOK (buildTurns rows) = true :=
  pairingOK_validate _ (tidy_build rows)

/-- C1 counterexample: the pairing invariant in its exact form (result
ids equal to the invocation ids, in order, no more, no fewer) fails.
With rows `[assistant tool call c1; result row for c2; result row for
c1]`, the forward scan consumes the `c2` result row even though `c2` is
not a pending invocation id, and the validation pass only checks that
`{c1}` is a subset of the follower's result ids, so the extra `c2`
result survives. -/
theorem buildTurns_exact_pairing_fails :
    exactPairingOK
      (buildTurns
        [⟨.outgoing, "use", [⟨"c1", "search", "{}"⟩], ""⟩,
         ⟨.incoming, "x", [], "c2"⟩,
         ⟨.incoming, "y", [], "c1"⟩]) = false := by
  have hb : buildConversationHistoryWithTools
      [⟨.outgoing, "use", [⟨"c1", "search", "{}"⟩], ""⟩,
       ⟨.incoming, "x", [], "c2"⟩,
       ⟨.incoming, "y", [], "c1"⟩] =
      [asstToolMsg ⟨.outgoing, "use", [⟨"c1", "search", "{}"⟩], ""⟩,
       resultUserMsg ⟨.outgoing, "use", [⟨"c1", "search", "{}"⟩], ""⟩
         [⟨.incoming, "x", [], "c2"⟩, ⟨.incoming, "y", [], "c1"⟩]] := by
    rw [build_tool _ _ (by decide) (by decide)]
    rw [show List.dropWhile (fun r : Row => decide (r.tool_result_for ≠ ""))
        [⟨.incoming, "x", [], "c2"⟩, ⟨.incoming, "y", [], "c1"⟩] = [] from by decide]
    rw [build_nil]
    rfl
  unfold buildTurns
  rw [hb]
  rw [validate_covered _ _ _ (by decide) (by decide)]
  rw [validate_cons_of_not_asst _ (by decide), validate_nil]
  decide

/-- C2 counterexample: `filter_messages_by_tokens` does drop the last
remaining turn.  On the one-message history `[user "hello"]` with a
budget of 0 tokens the estimate (2 tokens) exceeds the budget, the single
message is removed, and the empty list is returned even though the input
was non-empty. -/
theorem filterMessagesByTokens_drops_last_turn :
    filterMessagesByTokens [⟨.user, .text "hello"⟩] 0 = [] ∧
      ([⟨.user, .text "hello"⟩] : List Msg) ≠ [] := by
  constructor
  · decide
  · decide

/-- C2 (amended): `filter_messages_by_tokens` returns the empty list
exactly when every non-empty suffix of the input (including the final
single-turn suffix) exceeds the budget; in that case the caller receives
an empty history, not the over-budget last turn. -/
theorem filterMessagesByTokens_eq_nil_iff (msgs : List Msg) (maxTokens : Nat) :
    filterMessagesByTokens msgs maxTokens = [] ↔
      ∀ s : List Msg, s ≠ [] → s.IsSuffix msgs → maxTokens < estimateTokenCount s := by
  have hdrop : ∀ (l : List Msg),
      (dropLoop l maxTokens = [] ↔
        ∀ s : List Msg, s ≠ [] → s.IsSuffix l → maxTokens < estimateTokenCount s) := by
    intro l
    induction l with
    | nil =>
      simp only [dropLoop, true_iff]
      intro s hs hsuf
      exact absurd (List.eq_nil_of_suffix_nil hsuf) hs
    | cons m rest ih =>
      simp only [dropLoop]
      split
      · constructor
        · intro hh
          exact absurd hh (by simp)
        · intro hr
          have := hr (m :: rest) (by simp) (List.suffix_refl _)
          omega
      · rw [ih]
        constructor
        · intro hr s hs hsuf
          rcases List.suffix_cons_iff.mp hsuf with h | h
          · subst h
            omega
          · exact hr s hs h
        · intro hr s hs hsuf
          exact hr s hs (hsuf.trans (List.suffix_cons _ _))
  unfold filterMessagesByTokens
  split
  next hemp =>
    have hnil : msgs = [] := List.isEmpty_iff.mp hemp
    subst hnil
    simp only [true_iff]
    intro s hs hsuf
    exact absurd (List.eq_nil_of_suffix_nil hsuf) hs
  next => exact hdrop msgs

/-- C3 counterexample: for the single outgoing row with empty content and
tool calls `[{id:"c1",name:"search"}]`, `BuildTurns` does not return two
turns — the empty-content skip removes the row before its tool calls are
examined, so the output has length 0, not 2. -/
theorem scenarioB_not_two_turns :
    (buildTurns [⟨.outgoing, "", [⟨"c1", "search", "{}"⟩], ""⟩]).length ≠ 2 := by
  unfold buildTurns
  rw [build_skip _ _ (by decide), build_nil, validate_nil]
  decide

/-- C3 (amended): for the single outgoing row with empty content and tool
calls `[{id:"c1",name:"search"}]`, `BuildTurns` returns no turns at all:
the empty/blank-content skip applies before tool calls are considered, so
a tool-call row with empty content is dropped entirely (the `"Using
tools"` fallback text is unreachable for string contents). -/
theorem scenarioB_returns_no_turns :
    buildTurns [⟨.outgoing, "", [⟨"c1", "search", "{}"⟩], ""⟩] = [] := by
  unfold buildTurns
  rw [build_skip _ _ (by decide), build_nil, validate_nil]

/-- C9: for every input turn list and every token budget, the output of
`filter_messages_by_tokens` is a contiguous suffix of the input list —
whole turns only, never a partially removed turn, obtained by repeatedly
dropping the oldest turn. -/
theorem filterMessagesByTokens_suffix (msgs : List Msg) (maxTokens : Nat) :
    (filterMessagesByTokens msgs maxTokens).IsSuffix msgs := by
  have hdrop : ∀ (l : List Msg), (dropLoop l maxTokens).IsSuffix l := by
    intro l
    induction l with
    | nil => simp [dropLoop]
    | cons m rest ih =>
      simp only [dropLoop]
      split
      · exact List.suffix_refl _
      · exact ih.trans (List.suffix_cons _ _)
  unfold filterMessagesByTokens
  split
  · exact List.suffix_refl _
  · exact hdrop msgs

/-! ## The bounded tool loop (`process_message_with_claude`) -/

/-- A content block of a model response (`response.content`). -/
inductive RespBlock where
  | textR (s : String)
  | toolUseR (id : String) (name : String) (input : String)
deriving DecidableEq, Repr

/-- A model response as consumed by the loop. -/
structure ModelResponse where
  content : List RespBlock
deriving DecidableEq, Repr

/-- Outcome of one `anthropic.messages.create` call: a response, or a
raised exception (carried as its message). -/
inductive ModelOutcome where
  | ok (r : ModelResponse)
  | raise (e : String)
deriving DecidableEq, Repr

/-- Record of one model call: whether the request carried the `tools`
parameter, and whether the extra final no-more-tools user instruction was
appended to the request messages. -/
structure CallRecord where
  toolsEnabled : Bool
  finalInstruction : Bool
deriving DecidableEq, Repr

/-- The hard-coded iteration cap `MAX_TOOL_ITERATIONS = 5`. -/
def maxToolIterations : Nat := 5

/-- `any(content_block.type == "tool_use" for content_block in response.content)`. -/
def hasToolUse (r : ModelResponse) : Bool :=
  r.content.any fun b => match b with | .toolUseR _ _ _ => true | _ => false

/-- Concatenation of the text blocks of a response
(`result["text"] += content_block.text`). -/
def collectText (r : ModelResponse) : String :=
  r.content.foldl (fun acc b => match b with | .textR s => acc ++ s | _ => acc) ""

/-- A response block folded back into the conversation as a message
block. -/
def respBlockToBlock : RespBlock → Block
  | .textR s => .textB s
  | .toolUseR id name input => .toolUse id name input

/-- One tool batch: for every `tool_use` block, in order, dispatch to the
tool executor (which merges the local-handler and MCP paths of the
source, both of which produce one `tool_result` block); a tool name the
executor does not know (in neither registry) yields no result block, as
in the source. -/
def execBatch (executor : String → String → Option String)
    (blocks : List RespBlock) : List Block :=
  blocks.filterMap fun b =>
    match b with
    | .toolUseR id name input =>
      match executor name input with
      | some res => some (.toolResult id res)
      | none => none
    | .textR _ => none

/-- Final value of a completed loop.  `calls` records every model call in
order (the per-result `cache_control` annotation of the source has no
bearing on these observables and is not modelled). -/
structure LoopOut where
  text : String
  messages : List Msg
  batches : Nat
  calls : List CallRecord
deriving DecidableEq, Repr

/-- Result of the loop: normal completion, or an exception escaping it. -/
inductive LoopResult where
  | done (out : LoopOut)
  | raised (e : String)
deriving DecidableEq, Repr

def LoopResult.textOut : LoopResult → Option String
  | .done o => some o.text
  | .raised _ => none

def LoopResult.batchesOut : LoopResult → Option Nat
  | .done o => some o.batches
  | .raised _ => none

def LoopResult.callsOut : LoopResult → Option (List CallRecord)
  | .done o => some o.calls
  | .raised _ => none

/-- The `while tool_iterations < MAX_TOOL_ITERATIONS` loop of
`process_message_with_claude`.  `remaining` is `MAX_TOOL_ITERATIONS`
minus the iterations already executed; `callIdx` numbers the model calls
so the model oracle can vary per call.  After executing a batch, if the
counter has reached the cap, one final model call is issued without the
`tools` parameter and with the extra "No more tools are available"
instruction message, and its text is returned regardless of content. -/
def toolLoopAux (model : Nat → ModelOutcome)
    (executor : String → String → Option String) (toolsAvailable : Bool) :
    Nat → Nat → Nat → List Msg → List CallRecord → LoopResult
  | 0, _, batches, msgs, calls => .done ⟨"", msgs, batches, calls⟩
  | remaining + 1, callIdx, batches, msgs, calls =>
    let calls' := calls ++ [⟨toolsAvailable, false⟩]
    match model callIdx with
    | .raise e => .raised e
    | .ok resp =>
      if hasToolUse resp = false then
        .done ⟨collectText resp, msgs, batches, calls'⟩
      else
        let results := execBatch executor resp.content
        let msgs' := msgs ++
          [⟨.assistant, .blocks (resp.content.map respBlockToBlock)⟩,
           ⟨.user, .blocks results⟩]
        let batches' := batches + 1
        if maxToolIterations ≤ batches' then
          match model (callIdx + 1) with
          | .raise e => .raised e
          | .ok finalResp =>
            .done ⟨collectText finalResp, msgs', batches',
                   calls' ++ [⟨false, true⟩]⟩
        else
          toolLoopAux model executor toolsAvailable remaining (callIdx + 1)
            batches' msgs' calls'

/-- The tool loop of `process_message_with_claude`, entered with the
initial message list (history plus the enhanced current prompt). -/
def toolLoop (model : Nat → ModelOutcome)
    (executor : String → String → Option String) (toolsAvailable : Bool)
    (initMsgs : List Msg) : LoopResult :=
  toolLoopAux model executor toolsAvailable maxToolIterations 0 0 initMsgs []

/-- The JSON-RPC error object built by the function's exception handler. -/
structure A2AError where
  code : Int
  message : String
  details : String
deriving DecidableEq, Repr

/-- What the caller of `process_message_with_claude` receives in the
A2A response message: a result payload or an error object. -/
inductive A2AOutcome where
  | success (text : String)
  | failure (err : A2AError)
deriving DecidableEq, Repr

/-- `process_message_with_claude` including its top-level
`try ... except Exception` handler: a raised model-call error is caught
and turned into a normally returned JSON-RPC error message
`{code: -32603, message: "Internal error", data: {details: str(e)}}`.
An exception propagating uncaught to the caller would be `.error`;
the function as written always returns `.ok`. -/
def processMessageWithClaude (model : Nat → ModelOutcome)
    (executor : String → String → Option String) (toolsAvailable : Bool)
    (initMsgs : List Msg) : Except String A2AOutcome :=
  match toolLoop model executor toolsAvailable initMsgs with
  | .done out => .ok (.success out.text)
  | .raised e => .ok (.failure ⟨-32603, "Internal error", e⟩)

/-- C4 counterexample: with a model whose very first call raises
`"boom"`, the caller of the tool loop receives a normally returned
JSON-RPC error message, not a propagated exception — the claim that the
error "propagates uncaught to the caller" is false. -/
theorem modelFailure_not_propagated :
    processMessageWithClaude (fun _ => .raise "boom") (fun _ _ => some "{}")
      true [] = .ok (.failure ⟨-32603, "Internal error", "boom"⟩) := rfl

/-- C4 (amended): a model-call failure is not caught inside the loop
itself — it escapes the loop as a raised exception — but the top-level
handler of `process_message_with_claude` catches it and returns a
JSON-RPC error message (code -32603, message "Internal error", details
from the exception) to the caller instead of letting it propagate. -/
theorem modelFailure_caught_at_function_level (model : Nat → ModelOutcome)
    (executor : String → String → Option String) (toolsAvailable : Bool)
    (initMsgs : List Msg) (e : String) (h : model 0 = .raise e) :
    toolLoop model executor toolsAvailable initMsgs = .raised e ∧
      processMessageWithClaude model executor toolsAvailable initMsgs =
        .ok (.failure ⟨-32603, "Internal error", e⟩) := by
  have hloop : toolLoop model executor toolsAvailable initMsgs = .raised e := by
    simp [toolLoop, toolLoopAux, maxToolIterations, h]
  exact ⟨hloop, by simp [processMessageWithClaude, hloop]⟩

/-- Witness for C4: the amended statement holds at the concrete
always-raising model. -/
theorem modelFailure_caught_at_function_level_witness :
    toolLoop (fun _ => .raise "boom") (fun _ _ => some "{}") true [] =
        .raised "boom" ∧
      processMessageWithClaude (fun _ => .raise "boom") (fun _ _ => some "{}")
        true [] = .ok (.failure ⟨-32603, "Internal error", "boom"⟩) :=
  modelFailure_caught_at_function_level (fun _ => .raise "boom")
    (fun _ _ => some "{}") true [] "boom" rfl

/-- C5: with a model that requests a tool on every response, the loop
executes exactly 5 tool batches, then issues exactly one final model
call with tools disabled and the no-more-tools instruction appended
(after 5 in-loop calls with tools enabled), returns that final
response's text, and never runs a 6th batch. -/
theorem toolLoop_cap_forces_final_call (model : Nat → ModelOutcome)
    (executor : String → String → Option String) (initMsgs : List Msg)
    (finalResp : ModelResponse)
    (h : ∀ k, ∃ r, model k = .ok r ∧ hasToolUse r = true)
    (hfin : model 5 = .ok finalResp) :
    (toolLoop model executor true initMsgs).batchesOut = some 5 ∧
      (toolLoop model executor true initMsgs).callsOut =
        some (List.replicate 5 ⟨true, false⟩ ++ [⟨false, true⟩]) ∧
      (toolLoop model executor true initMsgs).textOut =
        some (collectText finalResp) := by
  obtain ⟨r0, h0, t0⟩ := h 0
  obtain ⟨r1, h1, t1⟩ := h 1
  obtain ⟨r2, h2, t2⟩ := h 2
  obtain ⟨r3, h3, t3⟩ := h 3
  obtain ⟨r4, h4, t4⟩ := h 4
  simp [toolLoop, toolLoopAux, maxToolIterations, h0, t0, h1, t1, h2, t2,
    h3, t3, h4, t4, hfin, LoopResult.batchesOut, LoopResult.callsOut,
    LoopResult.textOut, List.replicate]

/-- Witness for C5: the cap behaviour at a concrete model that always
requests the tool `search`. -/
theorem toolLoop_cap_forces_final_call_witness :
    (toolLoop (fun _ => .ok ⟨[.toolUseR "t1" "search" "{}"]⟩)
        (fun _ _ => some "{}") true []).batchesOut = some 5 ∧
      (toolLoop (fun _ => .ok ⟨[.toolUseR "t1" "search" "{}"]⟩)
          (fun _ _ => some "{}") true []).callsOut =
        some (List.replicate 5 ⟨true, false⟩ ++ [⟨false, true⟩]) ∧
      (toolLoop (fun _ => .ok ⟨[.toolUseR "t1" "search" "{}"]⟩)
          (fun _ _ => some "{}") true []).textOut =
        some (collectText ⟨[.toolUseR "t1" "search" "{}"]⟩) :=
  toolLoop_cap_forces_final_call (fun _ => .ok ⟨[.toolUseR "t1" "search" "{}"]⟩)
    (fun _ _ => some "{}") [] ⟨[.toolUseR "t1" "search" "{}"]⟩
    (fun _ => ⟨⟨[.toolUseR "t1" "search" "{}"]⟩, rfl, rfl⟩) rfl

/-! ## The MCP streamable HTTP client (`mcp_streamable_client.py`,
`agno_mcp_tools.py`) -/

/-- A discovered tool descriptor. -/
structure MCPTool where
  name : String
  description : String
  inputSchema : String
deriving DecidableEq, Repr

/-- Combined outcome of one `connect` attempt, i.e. of the
`_initialize` / `_send_initialized` / `refresh_tools` sequence inside the
retry loop: a connection-level failure (`httpx.ConnectError` /
`httpx.ConnectTimeout`), any other exception (e.g. a valid JSON-RPC
error response, which `_send_request` raises as a generic exception), or
success with the discovered tool list. -/
inductive AttemptOutcome where
  | connFail
  | serverError (msg : String)
  | success (tools : List MCPTool)
deriving DecidableEq, Repr

/-- Terminal outcome of `connect`. -/
inductive ConnectOutcome where
  | connected
  | connectionError
  | otherError (msg : String)
deriving DecidableEq, Repr

/-- Observable result of `connect`: how many attempts were made, the
sleeps performed between attempts (each of `retry_delay` seconds), the
final `connected` flag, the tool catalogue, and how the call ended. -/
structure ConnectResult where
  attempts : Nat
  sleeps : List Nat
  connected : Bool
  tools : List MCPTool
  outcome : ConnectOutcome
deriving DecidableEq, Repr

/-- The `for attempt in range(retry_count)` loop of
`MCPStreamableClient.connect`, with the per-attempt outcome supplied by
an oracle indexed by attempt number.  On a connection-level failure the
loop sleeps `retry_delay` and retries unless this was the last attempt,
in which case it sets `connected = False` and raises `ConnectionError`;
any other exception is re-raised immediately without retrying. -/
def connectAux (oracle : Nat → AttemptOutcome) (retryCount retryDelay : Nat) :
    Nat → List Nat → ConnectResult
  | attempt, sleeps =>
    if _h : attempt < retryCount then
      match oracle attempt with
      | .success tools => ⟨attempt + 1, sleeps, true, tools, .connected⟩
      | .connFail =>
        if attempt < retryCount - 1 then
          connectAux oracle retryCount retryDelay (attempt + 1)
            (sleeps ++ [retryDelay])
        else
          ⟨attempt + 1, sleeps, false, [], .connectionError⟩
      | .serverError msg => ⟨attempt + 1, sleeps, false, [], .otherError msg⟩
    else
      ⟨attempt, sleeps, false, [], .connected⟩
termination_by attempt _ => retryCount - attempt
decreasing_by omega

/-- `MCPStreamableClient.connect(retry_count, retry_delay)` on a fresh
client (whose tool catalogue starts empty). -/
def connect (oracle : Nat → AttemptOutcome) (retryCount retryDelay : Nat) :
    ConnectResult :=
  connectAux oracle retryCount retryDelay 0 []

/-- C6: `connect` with `retries = 3` against an endpoint where every
attempt fails at the connection level performs exactly 3 attempts with
the configured delay between consecutive attempts, ends in a
`ConnectionError` with the client disconnected and the tool catalogue
empty; and a valid error response from the server (second oracle) is
raised after a single attempt with no retry and no delay. -/
theorem connect_retries_exhausted (oracle oracle2 : Nat → AttemptOutcome)
    (delay : Nat) (msg : String)
    (hfail : ∀ i, i < 3 → oracle i = .connFail)
    (herr : oracle2 0 = .serverError msg) :
    connect oracle 3 delay =
        ⟨3, [delay, delay], false, [], .connectionError⟩ ∧
      connect oracle2 3 delay = ⟨1, [], false, [], .otherError msg⟩ := by
  constructor
  · have h0 := hfail 0 (by omega)
    have h1 := hfail 1 (by omega)
    have h2 := hfail 2 (by omega)
    unfold connect
    rw [connectAux]
    simp only [h0]
    norm_num
    rw [connectAux]
    simp only [h1]
    norm_num
    rw [connectAux]
    simp only [h2]
    norm_num
  · unfold connect
    rw [connectAux]
    simp only [herr]
    norm_num

/-- Witness for C6 at concrete oracles: always connection failure, and
server error on the first attempt. -/
theorem connect_retries_exhausted_witness :
    connect (fun _ => .connFail) 3 2 =
        ⟨3, [2, 2], false, [], .connectionError⟩ ∧
      connect (fun i => if i = 0 then .serverError "MCP error" else .connFail)
        3 2 = ⟨1, [], false, [], .otherError "MCP error"⟩ :=
  connect_retries_exhausted (fun _ => .connFail)
    (fun i => if i = 0 then .serverError "MCP error" else .connFail) 2
    "MCP error" (fun _ _ => rfl) rfl

/-- A JSON-RPC response payload as the decoders inspect it: presence of
the `error` and `result` fields (their values carried opaquely as JSON
text, which the decoders never look inside) and the `id` field (request
ids are strings; a missing or non-string `id`, which can never equal the
request id, is `none`). -/
structure Payload where
  id : Option String
  result : Option String
  error : Option String
deriving DecidableEq, Repr

/-- Decoding failures of `_send_request`: the exception raised for a
payload with an `error` field (`"MCP error: ..."`, identical text in the
JSON and SSE branches), the exception for an SSE stream with no usable
payload, and a propagated `json.JSONDecodeError`. -/
inductive DecodeErr where
  | mcpError (err : String)
  | noValidResponse
  | jsonDecodeError
deriving DecidableEq, Repr

/-- One line of an SSE body as the scanners see it: a `data: ` line whose
payload parsed as JSON (`some`) or failed to parse (`none`, the scanner
continues), or any other line (skipped). -/
inductive SSELine where
  | dataLine (p : Option Payload)
  | otherLine
deriving DecidableEq, Repr

/-- The `application/json` branch of `MCPStreamableClient._send_request`:
decode the body; raise on an `error` field; otherwise return
`response_data.get('result', {})` (the empty object `{}` when the
`result` key is absent). -/
def decodeJsonBody : Option Payload → Except DecodeErr String
  | none => .error .jsonDecodeError
  | some p =>
    match p.error with
    | some e => .error (.mcpError e)
    | none => .ok (p.result.getD "{}")

/-- The `text/event-stream` branch of `_send_request`: scan for `data: `
lines; on a parsed payload raise on `error`, return its `result` when
its `id` equals the request id, return a `result` field even without an
id match, and otherwise keep scanning; fail when the stream is
exhausted. -/
def decodeSSEBody (requestId : String) : List SSELine → Except DecodeErr String
  | [] => .error .noValidResponse
  | .otherLine :: rest => decodeSSEBody requestId rest
  | .dataLine none :: rest => decodeSSEBody requestId rest
  | .dataLine (some p) :: rest =>
    match p.error with
    | some e => .error (.mcpError e)
    | none =>
      if p.id = some requestId then .ok (p.result.getD "{}")
      else
        match p.result with
        | some r => .ok r
        | none => decodeSSEBody requestId rest

/-- The `application/json` branch of `AgnoMCPTools._parse_response`:
return the decoded payload unchanged. -/
def parseRespJson : Option Payload → Except DecodeErr Payload
  | none => .error .jsonDecodeError
  | some p => .ok p

/-- The SSE branch of `_parse_response`: return the first `data: ` line
that parses, whole; fail when none does (the source's message there is
"No valid JSON found in SSE response"). -/
def parseRespSSE : List SSELine → Except DecodeErr Payload
  | [] => .error .noValidResponse
  | .dataLine (some p) :: _ => .ok p
  | .dataLine none :: rest => parseRespSSE rest
  | .otherLine :: rest => parseRespSSE rest

/-- C7 counterexample: for the payload `{"id": "other"}` (no `result`,
no `error`, id different from the request id `req_1`), the JSON branch of
`_send_request` returns the default empty object while the SSE branch
raises "No valid response found in SSE stream" — the two decodings are
not identical for every payload. -/
theorem dualFormat_decode_differs :
    decodeJsonBody (some ⟨some "other", none, none⟩) = .ok "{}" ∧
      decodeSSEBody "req_1" [.dataLine (some ⟨some "other", none, none⟩)] =
        .error .noValidResponse := by
  constructor
  · rfl
  · rfl

/-- C7 (amended): for every payload that carries an `error` field, or a
`result` field, or whose `id` equals the request id, the JSON branch and
the SSE branch of `_send_request` decode identically; and
`_parse_response` of the agno client decodes the two framings of the
same payload identically for every payload. -/
theorem dualFormat_decode_agrees (p : Payload) (requestId : String)
    (h : p.error.isSome ∨ p.result.isSome ∨ p.id = some requestId) :
    decodeJsonBody (some p) =
        decodeSSEBody requestId [.dataLine (some p)] ∧
      parseRespJson (some p) = parseRespSSE [.dataLine (some p)] := by
  refine ⟨?_, rfl⟩
  rcases p with ⟨id, result, error⟩
  rcases error with _ | e
  · rcases result with _ | r
    · rcases h with h | h | h
      · simp at h
      · simp at h
      · simp only at h
        simp [decodeJsonBody, decodeSSEBody, h]
    · by_cases hid : id = some requestId
      · simp [decodeJsonBody, decodeSSEBody, hid]
      · simp [decodeJsonBody, decodeSSEBody, hid]
  · simp [decodeJsonBody, decodeSSEBody]

/-- Witness for C7: the two branches agree on the payload
`{"id":"req_1","result":"42"}` for request id `req_1`. -/
theorem dualFormat_decode_agrees_witness :
    decodeJsonBody (some ⟨some "req_1", some "42", none⟩) =
        decodeSSEBody "req_1" [.dataLine (some ⟨some "req_1", some "42", none⟩)] ∧
      parseRespJson (some ⟨some "req_1", some "42", none⟩) =
        parseRespSSE [.dataLine (some ⟨some "req_1", some "42", none⟩)] :=
  dualFormat_decode_agrees ⟨some "req_1", some "42", none⟩ "req_1"
    (Or.inr (Or.inl rfl))

/-! ### Session-id propagation -/

/-- The events on one client instance that touch the session id: a
response received (with its headers, names normalized to lower case as
`httpx` does), and `close()`. -/
inductive ClientEvent where
  | response (headers : List (String × String))
  | close
deriving DecidableEq, Repr

/-- How one event changes `self.session_id`: `_send_request` reads only
the `x-mcp-session-id` response header (line 150; the `mcp-session-id`
name mentioned in the spec is never checked), and `close()` sets the
session id to `None`. -/
def stepSession (s : Option String) : ClientEvent → Option String
  | .response hs =>
    match hs.lookup "x-mcp-session-id" with
    | some v => some v
    | none => s
  | .close => none

/-- The session id held by the client after a sequence of events,
starting from the fresh-client state `None`. -/
def runSession (evs : List ClientEvent) : Option String :=
  evs.foldl stepSession none

/-- The session header attached to the next request or notification:
both `_send_request` and `_send_notification` add
`x-mcp-session-id: session_id` exactly when `self.session_id` is truthy
(non-`None` and non-empty). -/
def sessionHeaderSent : Option String → Option String
  | some v => if v = "" then none else some v
  | none => none

/-- Specification of the session id from the event history, read from
the most recent event backwards: cleared by `close()`, set by the last
response carrying an `x-mcp-session-id` header since then. -/
def lastObserved : List ClientEvent → Option String
  | [] => none
  | .close :: _ => none
  | .response hs :: rest =>
    match hs.lookup "x-mcp-session-id" with
    | some v => some v
    | none => lastObserved rest

/-- C8 counterexample: a session id delivered only via the
`mcp-session-id` response header is never captured, so the next request
carries no session header at all — contradicting the claim that a
session id observed in either header is attached to every subsequent
request. -/
theorem session_mcp_header_ignored :
    runSession [.response [("mcp-session-id", "sess-1")]] = none ∧
      sessionHeaderSent
        (runSession [.response [("mcp-session-id", "sess-1")]]) = none := by
  constructor
  · rfl
  · rfl

/-- C8 (amended): after any event sequence, the session header the
client attaches to its next request or notification is exactly the value
of the last `x-mcp-session-id` response header observed since the last
`close()` (when that value is non-empty), and no header is sent before
any such observation or after `close()`; the `mcp-session-id` header
name is ignored. -/
theorem session_propagation (evs : List ClientEvent) :
    runSession evs = lastObserved evs.reverse ∧
      sessionHeaderSent (runSession evs) =
        (lastObserved evs.reverse).bind
          fun v => if v = "" then none else some v := by
  have hrun : ∀ (l : List ClientEvent), runSession l = lastObserved l.reverse := by
    intro l
    induction l using List.reverseRecOn with
    | nil => rfl
    | append_singleton front e ih =>
      rcases e with hs | _
      · have : runSession (front ++ [.response hs]) =
            stepSession (runSession front) (.response hs) := by
          simp [runSession, List.foldl_append]
        rw [this, List.reverse_append]
        simp only [List.reverse_cons, List.reverse_nil, List.nil_append,
          List.singleton_append]
        rw [lastObserved]
        unfold stepSession
        cases hlk : hs.lookup "x-mcp-session-id" with
        | none => simp [hlk, ih]
        | some v => simp [hlk]
      · have : runSession (front ++ [.close]) =
            stepSession (runSession front) .close := by
          simp [runSession, List.foldl_append]
        rw [this, List.reverse_append]
        simp only [List.reverse_cons, List.reverse_nil, List.nil_append,
          List.singleton_append]
        rfl
  refine ⟨hrun evs, ?_⟩
  rw [hrun evs]
  cases lastObserved evs.reverse with
  | none => rfl
  | some v => rfl

/-! ### `call_tool` argument mutation -/

/-- The observable effect of `call_tool`'s argument handling: the
`arguments` value placed into the outgoing `tools/call` request, and the
caller's own dict after the call.  In the source these are the same
object — the insertion `arguments['profileId'] = self.profile_id`
happens in place on the dict the caller passed. -/
structure CallToolArgsEffect where
  sentArguments : List (String × String)
  callerArgsAfter : List (String × String)
deriving DecidableEq, Repr

/-- `if self.profile_id and 'profileId' not in arguments:
arguments['profileId'] = self.profile_id` — the guard uses Python
truthiness of the profile id and key membership; dict insertion appends
the new key at the end, with all other entries untouched. -/
def callToolPrepareArgs (profileId : Option String)
    (args : List (String × String)) : CallToolArgsEffect :=
  let args' :=
    match profileId with
    | some p =>
      if p ≠ "" ∧ (args.lookup "profileId").isNone then
        args ++ [("profileId", p)]
      else args
    | none => args
  ⟨args', args'⟩

/-- C10: when the client's profile id is set (truthy) and the caller's
arguments map lacks the key `profileId`, `call_tool` inserts
`profileId ↦ profile_id` into that very map before sending the request —
the sent arguments and the caller's map after the call are the same
updated map — and every other key is left unchanged. -/
theorem callTool_inserts_profileId (p : String) (args : List (String × String))
    (hp : p ≠ "") (hmiss : args.lookup "profileId" = none) :
    (callToolPrepareArgs (some p) args).callerArgsAfter =
        (callToolPrepareArgs (some p) args).sentArguments ∧
      (callToolPrepareArgs (some p) args).sentArguments.lookup "profileId" =
        some p ∧
      ∀ k, k ≠ "profileId" →
        (callToolPrepareArgs (some p) args).sentArguments.lookup k =
          args.lookup k := by
  have hargs : (callToolPrepareArgs (some p) args).sentArguments =
      args ++ [("profileId", p)] := by
    simp [callToolPrepareArgs, hp, hmiss]
  refine ⟨rfl, ?_, ?_⟩
  · rw [hargs, List.lookup_append, hmiss]
    simp [List.lookup]
  · intro k hk
    rw [hargs, List.lookup_append]
    have hbeq : (k == "profileId") = false := by
      simpa using hk
    have : ([("profileId", p)] : List (String × String)).lookup k = none := by
      simp [List.lookup, hbeq]
    rw [this]
    cases args.lookup k with
    | none => rfl
    | some v => rfl

/-- Witness for C10: the insertion at a concrete profile id and
arguments map. -/
theorem callTool_inserts_profileId_witness :
    (callToolPrepareArgs (some "prof-1") [("a", "1")]).callerArgsAfter =
        (callToolPrepareArgs (some "prof-1") [("a", "1")]).sentArguments ∧
      (callToolPrepareArgs (some "prof-1")
          [("a", "1")]).sentArguments.lookup "profileId" = some "prof-1" ∧
      ∀ k, k ≠ "profileId" →
        (callToolPrepareArgs (some "prof-1")
            [("a", "1")]).sentArguments.lookup k =
          ([("a", "1")] : List (String × String)).lookup k :=
  callTool_inserts_profileId "prof-1" [("a", "1")] (by decide) rfl

end AdventureHarmony
